import Mathlib

/-!
Verification of the minigame progression and scoring subsystem of the
gamified personal-finance app (client side).  The definitions below are a
shallow embedding of the TypeScript client code:

* `app/(tabs)/games/trivia-test.tsx` — local quiz bank, Fisher–Yates
  shuffle, question sampling, and the local finalize computation;
* `app/(tabs)/games/trivia.tsx` — `fetchJson` (timeout behaviour) and
  `loadQuiz` (low-data handling);
* `app/(tabs)/games/connections.tsx` — the categories game submit step and
  the rank-tier table of the games hub;
* `app/(tabs)/games/spend-detective.tsx` — the detective submit step and
  its local finish rule;
* `app/services/plaidApi.tsx` — the `post` helper (no timeout).

Machine floats of the source are modelled as exact rationals; JavaScript
`Math.random()` draws are modelled as an explicit stream of naturals, one
per loop index, reduced by modulus into the required interval.
-/

namespace Capstone

/-! ## JS helpers: truthiness of `||` and `??` on optional fields -/

/-- JS `o || d` for an optional number: `0` and absent are falsy. -/
def jsOrNum (o : Option Int) (d : Int) : Int :=
  match o with
  | some v => if v = 0 then d else v
  | none => d

/-- JS `o || d` for an optional string: the empty string and absent are falsy. -/
def jsOrStr (o : Option String) (d : String) : String :=
  match o with
  | some s => if s = "" then d else s
  | none => d

/-- JS truthiness of an optional string (non-empty means truthy). -/
def truthyStr (o : Option String) : Bool :=
  match o with
  | some s => s ≠ ""
  | none => false

/-! ## trivia-test.tsx : local question bank and shuffling -/

structure UIQuestion where
  id : String
  question : String
  choices : List String
  correctIndex : Nat
  explanation : Option String
deriving DecidableEq, Repr

/-- The eight-question local financial-trivia bank (`bank` in
`trivia-test.tsx`). -/
def bank : List UIQuestion := [
  { id := "q1",
    question := "You put $600 into an emergency fund each month. About how much after 6 months (no interest)?",
    choices := ["$2,400", "$3,600", "$4,200", "$6,000"],
    correctIndex := 1,
    explanation := some "$600 × 6 = $3,600." },
  { id := "q2",
    question := "Your credit card shows 20% APR. What does APR best describe?",
    choices := ["Annual interest rate", "Monthly late fee", "Card limit", "Cash-back rate"],
    correctIndex := 0,
    explanation := some "APR is the yearly interest rate on balances." },
  { id := "q3",
    question := "Your take-home pay is $3,000. A 50/30/20 budget suggests how much for savings/debt?",
    choices := ["$300", "$450", "$600", "$900"],
    correctIndex := 2,
    explanation := some "20% of $3,000 = $600." },
  { id := "q4",
    question := "You owe $1,200 at 1% monthly interest and pay only $12 this month. What happens?",
    choices := ["Balance unchanged", "Balance increases", "Balance drops to $1,188", "Account closes"],
    correctIndex := 1,
    explanation := some "$12 covers interest only → principal remains; more fees may accrue." },
  { id := "q5",
    question := "A savings account pays 4% APY. Roughly how much interest on $1,000 after one year?",
    choices := ["$4", "$40", "$400", "$140"],
    correctIndex := 1,
    explanation := some "≈ 4% of $1,000 = $40 (ignoring compounding nuance)." },
  { id := "q6",
    question := "You finance a $20,000 car for 5 years at a fixed rate. Lower monthly payment usually means…",
    choices := ["Shorter loan term", "More interest over life", "Higher credit score", "Higher down payment"],
    correctIndex := 1,
    explanation := some "Longer term → lower monthly but more total interest." },
  { id := "q7",
    question := "Which action most quickly improves your credit score?",
    choices := ["Lower credit utilization", "Open many new cards", "Only make minimums", "Ignore old collections"],
    correctIndex := 0,
    explanation := some "Keeping balances low vs. limits improves utilization." },
  { id := "q8",
    question := "You earn $1,200 and spend $900 this week. Savings rate?",
    choices := ["15%", "20%", "25%", "30%"],
    correctIndex := 2,
    explanation := some "Saved $300 → 300/1200 = 25%." }
]

/-- One Fisher–Yates swap `[c[i], c[j]] = [c[j], c[i]]`; out-of-range
indices leave the list unchanged (in the shuffle both indices are always in
range). -/
def listSwap (l : List α) (i j : Nat) : List α :=
  match l[i]?, l[j]? with
  | some a, some b => (l.set i b).set j a
  | _, _ => l

/-- Descending loop of the shuffle: `for (i = len-1; i > 0; i--)` with
`j = ⌊random·(i+1)⌋` modelled as `r i % (i+1)`. -/
def shuffleGo (r : Nat → Nat) : Nat → List α → List α
  | 0, l => l
  | i+1, l => shuffleGo r i (listSwap l (i+1) (r (i+1) % (i+2)))

/-- Model of `shuffle` in `trivia-test.tsx`: copy, then Fisher–Yates over the copy.
`r` supplies the random draw used at loop index `i`. -/
def shuffle (r : Nat → Nat) (a : List α) : List α :=
  shuffleGo r (a.length - 1) a

/-- Choice re-shuffling of one sampled question: pair every choice with its
index, shuffle the pairs, and recover the new `correctIndex` with
`findIndex` (in the source `-1` marks absence; here the list length does —
both are out of range). -/
def reshuffleQuestion (r : Nat → Nat) (q : UIQuestion) : UIQuestion :=
  let pairs := q.choices.enum.map (fun p => (p.2, p.1))
  let s := shuffle r pairs
  { q with choices := s.map (fun p => p.1),
           correctIndex := s.findIdx (fun p => p.2 = q.correctIndex) }

/-- Model of `sampleQuestions(n)` in `trivia-test.tsx`: shuffle the bank with the
stream `r 0`, keep the first `n` questions, and re-shuffle the choices of
the `k`-th kept question with the stream `r (k+1)`. -/
def sampleQuestions (r : Nat → Nat → Nat) (n : Nat := 6) : List UIQuestion :=
  let picked := (shuffle (r 0) bank).take n
  picked.enum.map (fun p => reshuffleQuestion (r (p.1 + 1)) p.2)

/-- Model of `load` in `trivia-test.tsx`: it calls `sampleQuestions(6)`. -/
def loadQuestions (r : Nat → Nat → Nat) : List UIQuestion :=
  sampleQuestions r 6

/-! ## trivia-test.tsx : local finalize computation -/

structure SubmitResult where
  score : Int
  total : Nat
  accuracy : ℚ
  xpEarned : Int
  level : Int
  streak : Nat
  explanations : List String
deriving DecidableEq, Repr

/-- The `reduce` of `onNextOrSubmit`:
`questions.reduce((acc,qq,i) => acc + (answers[i]===qq.correctIndex ? 1:0), 0)`,
with `i` starting at the offset argument. -/
def countCorrectFrom (answers : Nat → Option Nat) : Nat → List UIQuestion → Nat
  | _, [] => 0
  | i, q :: rest =>
      (if answers i = some q.correctIndex then 1 else 0) + countCorrectFrom answers (i+1) rest

/-- Placeholder for the JS `undefined` question (reached only on an empty
round, where the source would crash instead). -/
def defaultQuestion : UIQuestion := ⟨"", "", [], 0, none⟩

/-- The finalize computation of `onNextOrSubmit` in `trivia-test.tsx` on
the last question: `answers` is the answer array before this submission,
`selected` the current selection. -/
def quizResult (questions : List UIQuestion) (answers : Nat → Option Nat)
    (selected : Option Nat) (explanations : List String) : SubmitResult :=
  let index := questions.length - 1
  let q := questions.getD index defaultQuestion
  let total := questions.length
  let earlier : Nat := countCorrectFrom answers 0 questions
  let score : Int := (earlier : Int)
      + (if selected = some q.correctIndex then 1 else 0)
      - (if answers index = some q.correctIndex then 1 else 0)
  let accuracy : ℚ := if total ≠ 0 then (score : ℚ) / (total : ℚ) else 0
  { score := score
    total := total
    accuracy := accuracy
    xpEarned := score * 20
    level := max 1 (Int.floor (1 + accuracy * 10))
    streak := if (3 : ℚ)/5 ≤ accuracy then 3 else 0
    explanations := explanations }

/-! ## games/index.tsx (`GamesHome`) : rank tiers -/

structure Tier where
  key : String
  min : Nat
  color : String
deriving DecidableEq, Repr

/-- The six rank tiers of the games hub (`tiers` in `GamesHome`). -/
def tiers : List Tier := [
  { key := "Penny Pincher", min := 0, color := "#B87333" },
  { key := "Savvy Saver", min := 500, color := "#CD7F32" },
  { key := "Budget Master", min := 1500, color := "#C0C0C0" },
  { key := "Portfolio Pro", min := 3500, color := "#FFD700" },
  { key := "Investment Expert", min := 7000, color := "#E5E4E2" },
  { key := "Finance Legend", min := 12000, color := "#B9F2FF" }
]

/-- Model of `currentTierIndex` in `GamesHome`: the reversed list is scanned with
`findIndex (t => xp >= t.min)`; a hit at reversed position `i` gives index
`length - 1 - i`, a miss gives `0`. -/
def currentTierIndex (xp : Nat) : Nat :=
  match tiers.reverse.findIdx? (fun t => t.min ≤ xp) with
  | some i => tiers.length - 1 - i
  | none => 0

/-! ## spend-detective.tsx : submit step and local finish rule -/

/-- JS `toFixed(2)` on a non-negative rational followed by unary `+`:
round to the nearest hundredth, ties away from zero. -/
def round2 (q : ℚ) : ℚ := (⌊q * 100 + 1/2⌋ : ℚ) / 100

/-- The fields of a detective submit response that the client reads. -/
structure DetSubmitJson where
  tries_remaining : Option Int
  total_correct : Option Int
  new_correct : Option Int
  total_anomalies : Option Int
  round_complete : Bool
  xp_earned : Option ℚ
  accuracy : Option ℚ
deriving DecidableEq, Repr

/-- Final stats the detective screen stores on completion (display-only
fields such as level, streak and summary are omitted). -/
structure DetFinalStats where
  xp : Option ℚ
  accuracy : Option ℚ
deriving DecidableEq, Repr

/-- Client state of the spend-detective screen. -/
structure DetState where
  loading : Bool
  error : Option String
  canPlay : Bool
  tries : Int
  totalCorrect : Int
  totalAnomalies : Option Int
  locked : List String
  completed : Bool
  finalStats : Option DetFinalStats
deriving DecidableEq, Repr

/-- JS `json.new_correct && json.new_correct > 0`. -/
def detWasCorrect (j : DetSubmitJson) : Bool :=
  match j.new_correct with
  | some n => decide (0 < n)
  | none => false

/-- Value `nextCorrect` of `onSubmit`: the server total if present, else the
pre-submit found count plus one on a correct guess. -/
def detNextCorrect (s : DetState) (j : DetSubmitJson) : Int :=
  match j.total_correct with
  | some t => t
  | none => s.totalCorrect + (if detWasCorrect j then 1 else 0)

/-- Value `nextTotal` of `onSubmit`: the server anomaly total if present, else
the remembered one. -/
def detNextTotal (s : DetState) (j : DetSubmitJson) : Option Int :=
  match j.total_anomalies with
  | some t => some t
  | none => s.totalAnomalies

/-- Model of `onSubmit` in `spend-detective.tsx` after a successful network call:
clamp tries with `min`, update the correct count and anomaly total, lock a
correctly guessed transaction, then finish on `round_complete` or through
`maybeFinishLocally` when the running count reaches the known target. -/
def detSubmitStep (s : DetState) (selectedId : String) (j : DetSubmitJson) : DetState :=
  let tries1 := match j.tries_remaining with
    | some t => min s.tries t
    | none => s.tries
  let totalCorrect1 := match j.total_correct with
    | some t => t
    | none => match j.new_correct with
      | some n => if 0 < n then s.totalCorrect + n else s.totalCorrect
      | none => s.totalCorrect
  let totalAnomalies1 := match j.total_anomalies with
    | some t => some t
    | none => s.totalAnomalies
  let locked1 := if detWasCorrect j then selectedId :: s.locked else s.locked
  let s1 := { s with tries := tries1, totalCorrect := totalCorrect1,
                     totalAnomalies := totalAnomalies1, locked := locked1 }
  if j.round_complete then
    { s1 with completed := true,
              finalStats := some { xp := j.xp_earned, accuracy := j.accuracy } }
  else
    let nextCorrect := detNextCorrect s j
    let nextTotal := detNextTotal s j
    match nextTotal with
    | some t =>
        if t ≤ nextCorrect then
          { s1 with completed := true,
                    finalStats := some {
                      xp := some (j.xp_earned.getD (nextCorrect * 20 : Int)),
                      accuracy := match j.accuracy with
                        | some a => some a
                        | none => if 0 < t then some (round2 ((nextCorrect : ℚ) / (t : ℚ))) else none } }
        else s1
    | none => s1

/-- Render guard of the playable detective view: the Submit button exists
only when `!loading && !error && canPlay && !completed`. -/
def detSubmitVisible (s : DetState) : Bool :=
  !s.loading && !truthyStr s.error && s.canPlay && !s.completed

/-! ## connections.tsx : categories game -/

structure TileCategory where
  id : String
  label : String
  category : Option String
deriving DecidableEq, Repr

structure TileAmount where
  id : String
  label : String
  value : Option ℚ
deriving DecidableEq, Repr

/-- The fields of a categories submit response that the client reads. -/
structure ConnSubmitJson where
  ok : Bool
  correct : Option Bool
  tries_remaining : Option Int
  round_complete : Option Bool
deriving DecidableEq, Repr

/-- Client state of the connections screen. -/
structure ConnState where
  categories : List TileCategory
  amounts : List TileAmount
  solved : List (TileCategory × TileAmount)
  tries : Int
  completed : Bool
deriving DecidableEq, Repr

/-- Lookup `Object.fromEntries(l.map (x => [getId x, x]))[id]`: with duplicate
keys the later entry wins, so look from the right. -/
def lookupById (getId : α → String) (l : List α) (id : String) : Option α :=
  l.reverse.find? (fun x => getId x = id)

/-- Model of `unsolvedCategories`: categories whose id is not in a solved pair. -/
def unsolvedCategories (s : ConnState) : List TileCategory :=
  s.categories.filter (fun tc => ¬ s.solved.any (fun p => p.1.id = tc.id))

/-- Model of `unsolvedAmounts`: amounts whose id is not in a solved pair. -/
def unsolvedAmounts (s : ConnState) : List TileAmount :=
  s.amounts.filter (fun ta => ¬ s.solved.any (fun p => p.2.id = ta.id))

/-- Model of `onCheck` in `connections.tsx` after a successful network call: tries
are set straight from the server; a wrong (or not-ok) response changes
nothing else; a correct one appends the looked-up pair to `solved` and
completes the round on `round_complete` or on the fifth solved pair. -/
def connCheckStep (s : ConnState) (selCatId selAmtId : String) (j : ConnSubmitJson) : ConnState :=
  let tries1 := match j.tries_remaining with
    | some t => t
    | none => s.tries
  if !j.ok || !(j.correct.getD false) then
    { s with tries := tries1 }
  else
    let cat? := lookupById TileCategory.id s.categories selCatId
    let amt? := lookupById TileAmount.id s.amounts selAmtId
    let solved1 := match cat?, amt? with
      | some tc, some ta => s.solved ++ [(tc, ta)]
      | _, _ => s.solved
    let nowSolved := s.solved.length + 1
    let completed1 := if j.round_complete.getD false || decide (5 ≤ nowSolved)
      then true else s.completed
    { s with tries := tries1, solved := solved1, completed := completed1 }

/-! ## connections.tsx / trivia.tsx : start-round low-data handling -/

/-- The fields of a quiz start response (`NewSetResponse` in `trivia.tsx`). -/
structure NewSetResponse where
  ok : Bool
  can_play : Bool
  difficulty : Option String
  questions : Option (List String)
  insufficient_data : Option Bool
  message : Option String
  xp_awarded : Option Int
  total_xp : Option Int
  level : Option Int
  streak : Option Int
deriving DecidableEq, Repr

/-- Outcome of `loadQuiz` as observed on screen. -/
inductive QuizLoadOutcome
  | error (msg : String)
  | lowData (message : String) (xp : Int) (level : Int) (streak : Int)
  | playable (questions : List String) (difficulty : String)
deriving DecidableEq, Repr

/-- Model of `loadQuiz` in `trivia.tsx`: a thrown error becomes the error screen; a
non-playable response reaches the low-data screen only when
`insufficient_data` and a truthy `message` are both present; a playable
response must carry a non-empty question list. -/
def loadQuizOutcome (res : NewSetResponse) : QuizLoadOutcome :=
  if !res.ok then .error "Failed to start quiz"
  else if !res.can_play then
    if res.insufficient_data.getD false && truthyStr res.message then
      .lowData (res.message.getD "") (jsOrNum res.xp_awarded 0)
        (jsOrNum res.level 1) (jsOrNum res.streak 0)
    else .error (jsOrStr res.message "Cannot play quiz at this time")
  else if res.questions.getD [] = [] then .error "No questions returned"
  else .playable (res.questions.getD []) (jsOrStr res.difficulty "basic")

/-- The fields of a categories start response that the low-data branch
reads. -/
structure ConnStartJson where
  ok : Bool
  can_play : Option Bool
  message : Option String
deriving DecidableEq, Repr

/-- Outcome of `startRound` in `connections.tsx`, restricted to which
screen is shown. -/
inductive ConnStartOutcome
  | error (msg : String)
  | lowData (message : String)
  | playable
deriving DecidableEq, Repr

/-- Model of `startRound` in `connections.tsx`: `can_play === false` always reaches
the low-data screen (with a default message), everything else that is `ok`
reaches the playable board. -/
def connStartOutcome (j : ConnStartJson) : ConnStartOutcome :=
  if !j.ok then .error "Unexpected response"
  else if j.can_play = some false then
    .lowData (jsOrStr j.message "You received XP for a low-spend period. Come back soon!")
  else .playable

/-! ## Network call sites and timeouts -/

/-- Abort timeout (ms) hard-wired into `fetchJson` of `trivia.tsx`. -/
def fetchJsonTimeoutMs : Nat := 15000

/-- Message `fetchJson` throws when its abort controller fires. -/
def fetchJsonAbortMessage : String := "Request timed out — check connection or server load."

/-- Network outcome seen by a client helper. -/
inductive FetchOutcome
  | httpOk (body : Option String)
  | httpErr (status : Nat) (statusText : String) (errField : Option String) (msgField : Option String)
  | aborted
deriving DecidableEq, Repr

/-- Result mapping of `fetchJson` in `trivia.tsx`: an HTTP error raises
`data.error || data.message || HTTP status statusText`, an abort raises the
timeout message. -/
def fetchJsonResult (o : FetchOutcome) : Except String (Option String) :=
  match o with
  | .httpOk body => .ok body
  | .httpErr status statusText errField msgField =>
      .error (jsOrStr errField (jsOrStr msgField
        ("HTTP " ++ toString status ++ " " ++ statusText)))
  | .aborted => .error fetchJsonAbortMessage

/-- Per-call-site timeout configuration: `some ms` when the call installs
an abort timer, `none` when it calls `fetch` bare. -/
def clientCallTimeouts : List (String × Option Nat) := [
  ("trivia.fetchJson", some fetchJsonTimeoutMs),
  ("plaidApi.post", none),
  ("xp-context.refresh", none),
  ("games-home.loadProfile", none),
  ("connections.startRound", none),
  ("connections.onCheck", none),
  ("spend-detective.startRound", none),
  ("spend-detective.postJsonWithFallback", none)
]

/-! ## General lemmas about the shuffle -/

theorem listSwap_countP (p : α → Bool) (l : List α) (i j : Nat) :
    (listSwap l i j).countP p = l.countP p := by
  unfold listSwap
  split
  case _ a b h1 h2 =>
    obtain ⟨hi, ha⟩ := List.getElem?_eq_some.mp h1
    obtain ⟨hj, hb⟩ := List.getElem?_eq_some.mp h2
    subst ha; subst hb
    have hj' : j < (l.set i l[j]).length := by simpa using hj
    rw [List.countP_set _ _ _ _ hj', List.countP_set _ _ _ _ hi]
    have hgj : (l.set i l[j])[j] = l[j] := by
      rcases eq_or_ne j i with h | h
      · subst h; simp
      · rw [List.getElem_set_ne (by omega)]
    rw [hgj]
    have h1le : (if p l[i] then 1 else 0) ≤ l.countP p := by
      split
      case _ hp => exact List.countP_pos_iff.mpr ⟨l[i], l.getElem_mem hi, hp⟩
      case _ => exact Nat.zero_le _
    have h2le : (if p l[j] then 1 else 0) ≤ 1 := by split <;> omega
    have h3le : (if p l[i] then 1 else 0) ≤ 1 := by split <;> omega
    omega
  case _ => rfl

theorem listSwap_perm [DecidableEq α] (l : List α) (i j : Nat) :
    (listSwap l i j).Perm l := by
  rw [List.perm_iff_count]
  intro a
  rw [List.count_eq_countP, List.count_eq_countP]
  exact listSwap_countP _ l i j

theorem shuffleGo_perm [DecidableEq α] (r : Nat → Nat) :
    ∀ (i : Nat) (l : List α), (shuffleGo r i l).Perm l
  | 0, _ => List.Perm.refl _
  | i+1, l =>
      (shuffleGo_perm r i (listSwap l (i+1) (r (i+1) % (i+2)))).trans
        (listSwap_perm l (i+1) (r (i+1) % (i+2)))

theorem shuffle_perm [DecidableEq α] (r : Nat → Nat) (l : List α) :
    (shuffle r l).Perm l :=
  shuffleGo_perm r (l.length - 1) l

theorem listSwap_length (l : List α) (i j : Nat) :
    (listSwap l i j).length = l.length := by
  unfold listSwap; split <;> simp

theorem shuffleGo_length (r : Nat → Nat) :
    ∀ (i : Nat) (l : List α), (shuffleGo r i l).length = l.length
  | 0, _ => rfl
  | i+1, l => by
      rw [shuffleGo, shuffleGo_length r i, listSwap_length]

theorem shuffle_length (r : Nat → Nat) (l : List α) :
    (shuffle r l).length = l.length :=
  shuffleGo_length r (l.length - 1) l

theorem sampleQuestions_length (r : Nat → Nat → Nat) (n : Nat) :
    (sampleQuestions r n).length = min n bank.length := by
  simp [sampleQuestions, shuffle_length]

/-- Re-shuffling a question keeps its id, question text and choice
multiset, and remaps `correctIndex` to the shuffled position of the
original correct answer. -/
theorem reshuffleQuestion_spec (r : Nat → Nat) (q : UIQuestion)
    (hci : q.correctIndex < q.choices.length) :
    (reshuffleQuestion r q).id = q.id ∧
    (reshuffleQuestion r q).question = q.question ∧
    (reshuffleQuestion r q).choices.Perm q.choices ∧
    (reshuffleQuestion r q).choices[(reshuffleQuestion r q).correctIndex]? =
      q.choices[q.correctIndex]? := by
  set pairs := q.choices.enum.map (fun p => (p.2, p.1)) with hpairs
  set s := shuffle r pairs with hs
  have hperm : s.Perm pairs := shuffle_perm r pairs
  have hmapfst : pairs.map Prod.fst = q.choices := by
    rw [hpairs, List.map_map]
    have hcomp : (Prod.fst ∘ fun p : Nat × String => (p.2, p.1)) = Prod.snd := rfl
    rw [hcomp, List.enum_map_snd]
  have hmapsnd : pairs.map Prod.snd = List.range q.choices.length := by
    rw [hpairs, List.map_map]
    have hcomp : (Prod.snd ∘ fun p : Nat × String => (p.2, p.1)) = Prod.fst := rfl
    rw [hcomp, List.enum_map_fst]
  have hsnodup : (s.map Prod.snd).Nodup := by
    rw [(hperm.map Prod.snd).nodup_iff, hmapsnd]
    exact List.nodup_range _
  have hpairq : pairs[q.correctIndex]? = some (q.choices[q.correctIndex], q.correctIndex) := by
    rw [hpairs, List.getElem?_map, List.getElem?_enum, List.getElem?_eq_getElem hci]
    rfl
  have hpair_mem : (q.choices[q.correctIndex], q.correctIndex) ∈ s :=
    hperm.mem_iff.mpr (List.getElem?_mem hpairq)
  have hfound : ∃ p ∈ s, (fun p : String × Nat => decide (p.2 = q.correctIndex)) p = true :=
    ⟨_, hpair_mem, by simp⟩
  have hklt : s.findIdx (fun p => p.2 = q.correctIndex) < s.length :=
    List.findIdx_lt_length_of_exists hfound
  have hsk : (s.get ⟨s.findIdx (fun p => p.2 = q.correctIndex), hklt⟩).2 = q.correctIndex := by
    have h := @List.findIdx_getElem _ (fun p : String × Nat => decide (p.2 = q.correctIndex))
      s hklt
    simpa using h
  have heq : s.get ⟨s.findIdx (fun p => p.2 = q.correctIndex), hklt⟩ =
      (q.choices[q.correctIndex], q.correctIndex) :=
    List.inj_on_of_nodup_map hsnodup (s.get_mem _ _) hpair_mem (by rw [hsk])
  have hch : (reshuffleQuestion r q).choices = s.map (fun p => p.1) := rfl
  have hcidx : (reshuffleQuestion r q).correctIndex =
      s.findIdx (fun p => p.2 = q.correctIndex) := rfl
  refine ⟨rfl, rfl, ?_, ?_⟩
  · rw [hch]
    have h1 : (s.map fun p => p.1).Perm (pairs.map Prod.fst) := hperm.map _
    rw [hmapfst] at h1
    exact h1
  · rw [hch, hcidx, List.getElem?_map]
    rw [List.getElem?_eq_getElem hklt]
    have hgetel : s[s.findIdx (fun p => p.2 = q.correctIndex)] =
        s.get ⟨s.findIdx (fun p => p.2 = q.correctIndex), hklt⟩ := rfl
    rw [hgetel, heq, List.getElem?_eq_getElem hci]
    rfl

/-! ## Rank-tier characterization -/

theorem currentTierIndex_eq (xp : Nat) :
    currentTierIndex xp =
      if 12000 ≤ xp then 5 else if 7000 ≤ xp then 4 else if 3500 ≤ xp then 3
      else if 1500 ≤ xp then 2 else if 500 ≤ xp then 1 else 0 := by
  simp only [currentTierIndex, tiers, List.reverse_cons, List.reverse_nil, List.nil_append,
    List.cons_append, List.findIdx?_cons, List.findIdx?_nil, List.length_cons, List.length_nil]
  norm_num
  split_ifs <;> simp_all

/-! ## Lemmas about the local quiz scorer -/

theorem countCorrectFrom_le (ans : Nat → Option Nat) :
    ∀ (qs : List UIQuestion) (i : Nat), countCorrectFrom ans i qs ≤ qs.length := by
  intro qs
  induction qs with
  | nil => intro i; simp [countCorrectFrom]
  | cons q rest ih =>
      intro i
      have := ih (i+1)
      simp only [countCorrectFrom, List.length_cons]
      split <;> omega

theorem countCorrectFrom_term_le (ans : Nat → Option Nat) :
    ∀ (qs : List UIQuestion) (i k : Nat), k < qs.length →
      (if ans (i + k) = some ((qs.getD k defaultQuestion).correctIndex) then 1 else 0) ≤
        countCorrectFrom ans i qs := by
  intro qs
  induction qs with
  | nil => intro i k hk; simp at hk
  | cons q rest ih =>
      intro i k hk
      cases k with
      | zero =>
          simp only [Nat.add_zero, List.getD_cons_zero, countCorrectFrom]
          have h0 : 0 ≤ countCorrectFrom ans (i+1) rest := Nat.zero_le _
          split <;> omega
      | succ k =>
          have hk' : k < rest.length := by simpa using hk
          have := ih (i+1) k hk'
          simp only [List.getD_cons_succ, countCorrectFrom]
          have harith : i + (k + 1) = (i + 1) + k := by omega
          rw [harith]
          exact le_trans this (Nat.le_add_left _ _)

theorem countCorrectFrom_add_one_le (ans : Nat → Option Nat) :
    ∀ (qs : List UIQuestion) (i k : Nat), k < qs.length →
      countCorrectFrom ans i qs + 1 ≤ qs.length +
        (if ans (i + k) = some ((qs.getD k defaultQuestion).correctIndex) then 1 else 0) := by
  intro qs
  induction qs with
  | nil => intro i k hk; simp at hk
  | cons q rest ih =>
      intro i k hk
      cases k with
      | zero =>
          have hr := countCorrectFrom_le ans rest (i+1)
          simp only [Nat.add_zero, List.getD_cons_zero, countCorrectFrom, List.length_cons]
          split <;> omega
      | succ k =>
          have hk' : k < rest.length := by simpa using hk
          have := ih (i+1) k hk'
          simp only [List.getD_cons_succ, countCorrectFrom, List.length_cons]
          have harith : i + (k + 1) = (i + 1) + k := by omega
          rw [harith]
          split <;> omega

theorem quizResult_bounds (qs : List UIQuestion) (ans : Nat → Option Nat)
    (sel : Option Nat) (e : List String) (hne : qs ≠ []) :
    0 ≤ (quizResult qs ans sel e).score ∧
    (quizResult qs ans sel e).score ≤ ((quizResult qs ans sel e).total : Int) ∧
    (quizResult qs ans sel e).accuracy =
      ((quizResult qs ans sel e).score : ℚ) / ((quizResult qs ans sel e).total : ℚ) ∧
    0 ≤ (quizResult qs ans sel e).accuracy ∧ (quizResult qs ans sel e).accuracy ≤ 1 := by
  have hlen : 0 < qs.length := List.length_pos.mpr hne
  have hk : qs.length - 1 < qs.length := by omega
  have h1 := countCorrectFrom_term_le ans qs 0 (qs.length - 1) hk
  have h2 := countCorrectFrom_add_one_le ans qs 0 (qs.length - 1) hk
  rw [Nat.zero_add] at h1 h2
  have hce := countCorrectFrom_le ans qs 0
  have hsc : (quizResult qs ans sel e).score =
      (countCorrectFrom ans 0 qs : Int)
      + (if sel = some ((qs.getD (qs.length - 1) defaultQuestion).correctIndex) then 1 else 0)
      - (if ans (qs.length - 1) = some ((qs.getD (qs.length - 1) defaultQuestion).correctIndex) then 1 else 0) := rfl
  have hto : (quizResult qs ans sel e).total = qs.length := rfl
  have hs0 : 0 ≤ (quizResult qs ans sel e).score := by
    rw [hsc]
    split_ifs at h1 ⊢ <;> omega
  have hstot : (quizResult qs ans sel e).score ≤ ((quizResult qs ans sel e).total : Int) := by
    rw [hsc, hto]
    split_ifs at h2 ⊢ <;> omega
  refine ⟨hs0, hstot, ?_, ?_, ?_⟩
  · show (if qs.length ≠ 0 then ((quizResult qs ans sel e).score : ℚ) / (qs.length : ℚ) else 0) = _
    rw [if_pos (by omega), hto]
  · show (0:ℚ) ≤ (if qs.length ≠ 0 then ((quizResult qs ans sel e).score : ℚ) / (qs.length : ℚ) else 0)
    rw [if_pos (by omega)]
    apply div_nonneg
    · exact_mod_cast hs0
    · positivity
  · show (if qs.length ≠ 0 then ((quizResult qs ans sel e).score : ℚ) / (qs.length : ℚ) else 0) ≤ 1
    rw [if_pos (by omega)]
    rw [div_le_one (by positivity)]
    have : (quizResult qs ans sel e).score ≤ (qs.length : Int) := by rw [← hto]; exact hstot
    exact_mod_cast this

/-! ## Lemmas about the detective submit step -/

theorem detSubmitStep_tries (s : DetState) (sel : String) (j : DetSubmitJson) :
    (detSubmitStep s sel j).tries =
      match j.tries_remaining with
      | some t => min s.tries t
      | none => s.tries := by
  simp only [detSubmitStep]
  split
  · rfl
  · split
    · split <;> rfl
    · rfl

theorem detSubmitStep_completed (s : DetState) (sel : String) (j : DetSubmitJson)
    (h : s.completed = false) :
    ((detSubmitStep s sel j).completed = true ↔
      (j.round_complete = true ∨
        ∃ t, detNextTotal s j = some t ∧ t ≤ detNextCorrect s j)) := by
  simp only [detSubmitStep]
  cases hrc : j.round_complete
  · simp only [Bool.false_eq_true, if_false]
    cases hdt : detNextTotal s j
    · simp [h, hdt]
    case some t =>
      by_cases hle : t ≤ detNextCorrect s j <;> simp [h, hdt, hle]
  · simp

theorem detSubmitStep_localFinish (s : DetState) (sel : String) (j : DetSubmitJson) (t : Int)
    (hrc : j.round_complete = false) (hacc : j.accuracy = none)
    (hdt : detNextTotal s j = some t) (hle : t ≤ detNextCorrect s j) (hpos : 0 < t) :
    (detSubmitStep s sel j).finalStats =
      some { xp := some (j.xp_earned.getD ((detNextCorrect s j * 20 : Int) : ℚ)),
             accuracy := some (round2 ((detNextCorrect s j : ℚ) / (t : ℚ))) } := by
  simp only [detSubmitStep, hrc, hdt, hacc]
  simp [hle, hpos]

/-! ## Lemmas about the connections submit step -/

theorem countP_id_le_one (f : α → String) (l : List α) (h : (l.map f).Nodup) (v : String) :
    l.countP (fun x => f x = v) ≤ 1 := by
  induction l with
  | nil => simp
  | cons a l ih =>
      simp only [List.map_cons, List.nodup_cons] at h
      rw [List.countP_cons]
      by_cases hv : f a = v
      · have hz : l.countP (fun x => f x = v) = 0 := by
          rw [List.countP_eq_zero]
          intro x hx
          simp only [decide_eq_true_eq]
          intro hfx
          exact h.1 (by rw [hv, ← hfx]; exact List.mem_map_of_mem f hx)
        simp [hz, hv]
      · have := ih h.2
        simp [hv]
        omega

theorem countP_id_pos (f : α → String) (l : List α) (x : α) (hx : x ∈ l) :
    1 ≤ l.countP (fun y => f y = f x) :=
  List.countP_pos_iff.mpr ⟨x, hx, by simp⟩

theorem length_filter_remove_id (f : α → String) (l : List α) (x : α)
    (hnd : (l.map f).Nodup) (hx : x ∈ l) :
    (l.filter (fun y => ¬ (f x = f y))).length + 1 = l.length := by
  have hone : l.countP (fun y => f y = f x) = 1 :=
    le_antisymm (countP_id_le_one f l hnd (f x)) (countP_id_pos f l x hx)
  have hperm := List.filter_append_perm (fun y => (¬ (f x = f y) : Bool)) l
  have hlen := hperm.length_eq
  rw [List.length_append] at hlen
  have hcompl : (l.filter (fun y => !(¬ (f x = f y) : Bool))).length
      = l.countP (fun y => f y = f x) := by
    rw [← List.countP_eq_length_filter]
    apply List.countP_congr
    intro y _
    simp [eq_comm]
  omega

theorem connCheckStep_wrong (s : ConnState) (sc sa : String) (j : ConnSubmitJson)
    (h : (!j.ok || !(j.correct.getD false)) = true) :
    (connCheckStep s sc sa j).solved = s.solved ∧
    unsolvedCategories (connCheckStep s sc sa j) = unsolvedCategories s ∧
    unsolvedAmounts (connCheckStep s sc sa j) = unsolvedAmounts s := by
  simp [connCheckStep, h, unsolvedCategories, unsolvedAmounts]

theorem connCheckStep_correct_state (s : ConnState) (sc sa : String) (j : ConnSubmitJson)
    (tc : TileCategory) (ta : TileAmount)
    (hok : j.ok = true) (hc : j.correct = some true)
    (hct : lookupById TileCategory.id s.categories sc = some tc)
    (hat : lookupById TileAmount.id s.amounts sa = some ta) :
    (connCheckStep s sc sa j).solved = s.solved ++ [(tc, ta)] ∧
    (connCheckStep s sc sa j).categories = s.categories ∧
    (connCheckStep s sc sa j).amounts = s.amounts := by
  simp [connCheckStep, hok, hc, hct, hat]

theorem unsolvedCategories_after_solve (s s' : ConnState) (tc : TileCategory) (ta : TileAmount)
    (hcat : s'.categories = s.categories) (hsol : s'.solved = s.solved ++ [(tc, ta)]) :
    unsolvedCategories s' = (unsolvedCategories s).filter (fun x => ¬ (tc.id = x.id)) := by
  unfold unsolvedCategories
  rw [hcat, hsol, List.filter_filter]
  apply List.filter_congr
  intro x _
  simp only [List.any_append, List.any_cons, List.any_nil, Bool.or_false]
  cases hany : s.solved.any (fun p => decide (p.1.id = x.id)) <;>
    by_cases hid : tc.id = x.id <;> simp [hany, hid]

theorem unsolvedAmounts_after_solve (s s' : ConnState) (tc : TileCategory) (ta : TileAmount)
    (hamt : s'.amounts = s.amounts) (hsol : s'.solved = s.solved ++ [(tc, ta)]) :
    unsolvedAmounts s' = (unsolvedAmounts s).filter (fun x => ¬ (ta.id = x.id)) := by
  unfold unsolvedAmounts
  rw [hamt, hsol, List.filter_filter]
  apply List.filter_congr
  intro x _
  simp only [List.any_append, List.any_cons, List.any_nil, Bool.or_false]
  cases hany : s.solved.any (fun p => decide (p.2.id = x.id)) <;>
    by_cases hid : ta.id = x.id <;> simp [hany, hid]

/-! ## Claim theorems -/

/-- C3: the level and rank derivations are pure functions — the six rank
tiers carry exactly the six names and the strictly increasing minimums
0, 500, 1500, 3500, 7000, 12000, recomputing the tier from equal XP gives
equal results, and the tier index is monotone in XP; the demo level of the
local quiz is likewise a pure function of its inputs. -/
theorem C3_rank_level_pure_monotone :
    tiers.map Tier.key = ["Penny Pincher", "Savvy Saver", "Budget Master",
      "Portfolio Pro", "Investment Expert", "Finance Legend"] ∧
    tiers.map Tier.min = [0, 500, 1500, 3500, 7000, 12000] ∧
    (tiers.map Tier.min).Pairwise (· < ·) ∧
    (∀ x y : Nat, x = y → currentTierIndex x = currentTierIndex y) ∧
    (∀ x y : Nat, x ≤ y → currentTierIndex x ≤ currentTierIndex y) ∧
    (∀ qs ans sel e, ∀ qs' ans' sel' e', qs = qs' → HEq ans ans' → sel = sel' → e = e' →
      (quizResult qs ans sel e).level = (quizResult qs' ans' sel' e').level) := by
  refine ⟨by decide, by decide, by decide, fun x y h => by rw [h], ?_, ?_⟩
  · intro x y hxy
    rw [currentTierIndex_eq, currentTierIndex_eq]
    split_ifs <;> omega
  · intro qs ans sel e qs' ans' sel' e' h1 h2 h3 h4
    cases h2; subst h1; subst h3; subst h4; rfl

/-- Witness for C3 at concrete XP values. -/
theorem C3_witness :
    currentTierIndex 500 ≤ currentTierIndex 1600 ∧ currentTierIndex 700 = currentTierIndex 700 :=
  ⟨C3_rank_level_pure_monotone.2.2.2.2.1 500 1600 (by norm_num),
   C3_rank_level_pure_monotone.2.2.2.1 700 700 rfl⟩

/-- C5: the local quiz finalize awards `score * 20` XP, and a perfect
round over 5 questions earns exactly 100 XP. -/
theorem C5_xp_is_twenty_per_correct :
    (∀ qs ans sel e, (quizResult qs ans sel e).xpEarned = (quizResult qs ans sel e).score * 20) ∧
    (quizResult (bank.take 5)
        (fun i => some ((bank.getD i defaultQuestion).correctIndex))
        (some ((bank.getD 4 defaultQuestion).correctIndex)) []).score = 5 ∧
    (quizResult (bank.take 5)
        (fun i => some ((bank.getD i defaultQuestion).correctIndex))
        (some ((bank.getD 4 defaultQuestion).correctIndex)) []).xpEarned = 100 := by
  refine ⟨fun qs ans sel e => rfl, by decide, by decide⟩

/-- C6 counterexample: the local quiz loader samples 6 questions, not 5
(`load` calls `sampleQuestions(6)` over the 8-question bank). -/
theorem C6_counterexample :
    (loadQuestions (fun _ _ => 0)).length = 6 ∧ (6 : Nat) ≠ 5 :=
  ⟨by decide, by decide⟩

/-- C6 amended: every local quiz load returns exactly 6 questions,
whatever the random draws. -/
theorem C6_load_returns_six :
    ∀ r : Nat → Nat → Nat, (loadQuestions r).length = 6 := by
  intro r
  rw [loadQuestions, sampleQuestions_length]
  decide

/-- C9 counterexample: the Plaid helper `post` installs no abort timer at
all, so not every network call carries the 15-second timeout. -/
theorem C9_counterexample :
    ("plaidApi.post", (none : Option Nat)) ∈ clientCallTimeouts ∧
    (none : Option Nat) ≠ some 15000 := by
  decide

/-- C9 amended: only the quiz screen's `fetchJson` helper carries the
15000 ms abort timeout and maps the abort to the distinguishable timeout
message; every other client call site calls `fetch` with no timeout. -/
theorem C9_timeout_only_fetchJson :
    ("trivia.fetchJson", some fetchJsonTimeoutMs) ∈ clientCallTimeouts ∧
    fetchJsonTimeoutMs = 15000 ∧
    fetchJsonResult .aborted = .error "Request timed out — check connection or server load." ∧
    ∀ p ∈ clientCallTimeouts, p.1 ≠ "trivia.fetchJson" → p.2 = none := by
  refine ⟨by decide, rfl, rfl, by decide⟩

/-- Witness for C9 at the Plaid call site. -/
theorem C9_witness : ((("plaidApi.post", (none : Option Nat))).2 = none) :=
  C9_timeout_only_fetchJson.2.2.2 ("plaidApi.post", none) (by decide) (by decide)

/-- C1 counterexample: the connections screen assigns the server value to
the tries counter verbatim, so a submit response with `tries_remaining: 3`
raises a previous counter of 1 to 3. -/
theorem C1_counterexample :
    (connCheckStep
      { categories := [], amounts := [], solved := [], tries := 1, completed := false }
      "c1" "a1"
      { ok := true, correct := some false, tries_remaining := some 3,
        round_complete := none }).tries = 3 ∧ ¬ ((3 : Int) ≤ 1) :=
  ⟨rfl, by decide⟩

/-- C1 amended: the detective screen's update clamps with `min`, so it
never increases the counter and keeps it non-negative whenever the
previous value and any server-sent value are non-negative; the connections
screen assigns the server value verbatim (which can increase it). -/
theorem C1_tries_update :
    (∀ (s : DetState) (sel : String) (j : DetSubmitJson),
        (detSubmitStep s sel j).tries ≤ s.tries) ∧
    (∀ (s : DetState) (sel : String) (j : DetSubmitJson),
        0 ≤ s.tries → (∀ t, j.tries_remaining = some t → 0 ≤ t) →
        0 ≤ (detSubmitStep s sel j).tries) ∧
    (∀ (s : ConnState) (sc sa : String) (j : ConnSubmitJson) (t : Int),
        j.tries_remaining = some t → (connCheckStep s sc sa j).tries = t) := by
  refine ⟨?_, ?_, ?_⟩
  · intro s sel j
    rw [detSubmitStep_tries]
    cases j.tries_remaining <;> simp
  · intro s sel j h0 hsrv
    rw [detSubmitStep_tries]
    cases htr : j.tries_remaining with
    | none => exact h0
    | some t =>
        have := hsrv t htr
        simp only [le_min_iff]
        exact ⟨h0, this⟩
  · intro s sc sa j t htr
    simp only [connCheckStep, htr]
    split <;> rfl

/-- Witness for C1 at concrete states. -/
theorem C1_witness :
    (detSubmitStep
      { loading := false, error := none, canPlay := true, tries := 3, totalCorrect := 0,
        totalAnomalies := none, locked := [], completed := false, finalStats := none }
      "t1"
      { tries_remaining := some 2, total_correct := none, new_correct := none,
        total_anomalies := none, round_complete := false, xp_earned := none,
        accuracy := none }).tries ≤ 3 ∧
    (connCheckStep
      { categories := [], amounts := [], solved := [], tries := 3, completed := false }
      "c1" "a1"
      { ok := true, correct := some false, tries_remaining := some 2,
        round_complete := none }).tries = 2 :=
  ⟨C1_tries_update.1 _ "t1" _, C1_tries_update.2.2 _ "c1" "a1" _ 2 rfl⟩

/-- C8: the detective round becomes completed exactly when the server
reports `round_complete` or the running correct count reaches the known
anomaly target, and in the completed state the submit control is no longer
rendered, so no further guesses are accepted. -/
theorem C8_detective_termination :
    (∀ (s : DetState) (sel : String) (j : DetSubmitJson), s.completed = false →
      ((detSubmitStep s sel j).completed = true ↔
        (j.round_complete = true ∨
          ∃ t, detNextTotal s j = some t ∧ t ≤ detNextCorrect s j))) ∧
    (∀ s : DetState, s.completed = true → detSubmitVisible s = false) := by
  refine ⟨detSubmitStep_completed, ?_⟩
  intro s h
  simp [detSubmitVisible, h]

/-- Witness for C8: a `round_complete` response completes a fresh round. -/
theorem C8_witness :
    (detSubmitStep
      { loading := false, error := none, canPlay := true, tries := 3, totalCorrect := 0,
        totalAnomalies := none, locked := [], completed := false, finalStats := none }
      "t1"
      { tries_remaining := some 2, total_correct := none, new_correct := some 1,
        total_anomalies := none, round_complete := true, xp_earned := none,
        accuracy := none }).completed = true :=
  (C8_detective_termination.1 _ "t1" _ rfl).mpr (Or.inl rfl)

/-- C2 counterexample: the detective fallback accuracy is the ratio rounded
to two decimals (`toFixed(2)`), so a response reporting 4 correct against a
3-anomaly target stores accuracy 1.33 rather than 4/3 (also exceeding 1). -/
theorem C2_counterexample :
    (detSubmitStep
      { loading := false, error := none, canPlay := true, tries := 3, totalCorrect := 0,
        totalAnomalies := none, locked := [], completed := false, finalStats := none }
      "t1"
      { tries_remaining := none, total_correct := some 4, new_correct := none,
        total_anomalies := some 3, round_complete := false, xp_earned := none,
        accuracy := none }).finalStats =
      some { xp := some 80, accuracy := some (133/100) } ∧
    (133/100 : ℚ) ≠ (4 : ℚ)/3 := by
  constructor
  · have h := detSubmitStep_localFinish
      { loading := false, error := none, canPlay := true, tries := 3, totalCorrect := 0,
        totalAnomalies := none, locked := [], completed := false, finalStats := none }
      "t1"
      { tries_remaining := none, total_correct := some 4, new_correct := none,
        total_anomalies := some 3, round_complete := false, xp_earned := none,
        accuracy := none }
      3 rfl rfl rfl (by decide) (by decide)
    rw [h]
    norm_num [detNextCorrect, round2]
  · norm_num

/-- C2 amended: the local quiz finalize satisfies `0 ≤ score ≤ total`,
`accuracy = score / total ∈ [0, 1]`; the detective fallback accuracy is
the correct-count over the anomaly target rounded to two decimals, which
equals the exact ratio whenever the count equals the target. -/
theorem C2_score_accuracy :
    (∀ qs ans sel e, qs ≠ [] →
      0 ≤ (quizResult qs ans sel e).score ∧
      (quizResult qs ans sel e).score ≤ ((quizResult qs ans sel e).total : Int) ∧
      (quizResult qs ans sel e).accuracy =
        ((quizResult qs ans sel e).score : ℚ) / ((quizResult qs ans sel e).total : ℚ) ∧
      0 ≤ (quizResult qs ans sel e).accuracy ∧ (quizResult qs ans sel e).accuracy ≤ 1) ∧
    (∀ (s : DetState) (sel : String) (j : DetSubmitJson) (t : Int),
      j.round_complete = false → j.accuracy = none → detNextTotal s j = some t →
      t ≤ detNextCorrect s j → 0 < t →
      (detSubmitStep s sel j).finalStats =
        some { xp := some (j.xp_earned.getD ((detNextCorrect s j * 20 : Int) : ℚ)),
               accuracy := some (round2 ((detNextCorrect s j : ℚ) / (t : ℚ))) } ∧
      (detNextCorrect s j = t →
        round2 ((detNextCorrect s j : ℚ) / (t : ℚ)) = (detNextCorrect s j : ℚ) / (t : ℚ))) := by
  refine ⟨quizResult_bounds, ?_⟩
  intro s sel j t hrc hacc hdt hle hpos
  refine ⟨detSubmitStep_localFinish s sel j t hrc hacc hdt hle hpos, ?_⟩
  intro heq
  rw [heq]
  have ht0 : (t : ℚ) ≠ 0 := by
    exact_mod_cast hpos.ne'
  rw [div_self ht0]
  norm_num [round2]

/-- Witness for C2 on a concrete two-question round. -/
theorem C2_witness :
    (quizResult (bank.take 2) (fun _ => none) none []).accuracy =
      ((quizResult (bank.take 2) (fun _ => none) none []).score : ℚ) /
        ((quizResult (bank.take 2) (fun _ => none) none []).total : ℚ) :=
  (C2_score_accuracy.1 (bank.take 2) (fun _ => none) none [] (by decide)).2.2.1

/-- C4 counterexample: a start response with `insufficient_data: true` but
no message makes `loadQuiz` throw, so the quiz screen shows the error view
rather than the low-data view. -/
theorem C4_counterexample :
    loadQuizOutcome
      { ok := true, can_play := false, difficulty := none, questions := none,
        insufficient_data := some true, message := none, xp_awarded := some 25,
        total_xp := none, level := none, streak := none } =
      .error "Cannot play quiz at this time" := by
  decide

/-- C4 amended: when the insufficient-data response carries a non-empty
message the quiz screen reaches the low-data view with XP defaulting to 0
when absent (non-negative whenever the server value is), and a
non-playable response never reaches the playable view; the connections
screen reaches its low-data view on every ok `can_play: false` response. -/
theorem C4_low_data_handling :
    (∀ res : NewSetResponse, res.ok = true → res.can_play = false →
      res.insufficient_data = some true → ∀ m, res.message = some m → m ≠ "" →
      loadQuizOutcome res =
        .lowData m (jsOrNum res.xp_awarded 0) (jsOrNum res.level 1) (jsOrNum res.streak 0)) ∧
    (∀ res : NewSetResponse, res.can_play = false →
      ∀ qs d, loadQuizOutcome res ≠ .playable qs d) ∧
    (∀ res : NewSetResponse, res.xp_awarded = none → jsOrNum res.xp_awarded 0 = 0) ∧
    (∀ v : Int, 0 ≤ v → 0 ≤ jsOrNum (some v) 0) ∧
    (∀ j : ConnStartJson, j.ok = true → j.can_play = some false →
      connStartOutcome j =
        .lowData (jsOrStr j.message "You received XP for a low-spend period. Come back soon!")) := by
  refine ⟨?_, ?_, ?_, ?_, ?_⟩
  · intro res hok hcp hins m hm hne
    simp [loadQuizOutcome, hok, hcp, hins, hm, truthyStr, hne]
  · intro res hcp qs d
    simp only [loadQuizOutcome, hcp]
    split
    · simp
    · simp only [Bool.not_false, if_true]
      split <;> simp
  · intro res hxp
    simp [jsOrNum, hxp]
  · intro v hv
    simp only [jsOrNum]
    split <;> omega
  · intro j hok hcp
    simp [connStartOutcome, hok, hcp]

/-- Witness for C4 on a concrete low-data response. -/
theorem C4_witness :
    loadQuizOutcome
      { ok := true, can_play := false, difficulty := none, questions := none,
        insufficient_data := some true, message := some "Keep at it!", xp_awarded := some 25,
        total_xp := none, level := some 2, streak := some 1 } =
      .lowData "Keep at it!" 25 2 1 := by
  have h := C4_low_data_handling.1
    { ok := true, can_play := false, difficulty := none, questions := none,
      insufficient_data := some true, message := some "Keep at it!", xp_awarded := some 25,
      total_xp := none, level := some 2, streak := some 1 }
    rfl rfl rfl "Keep at it!" rfl (by decide)
  simpa [jsOrNum] using h

/-- C7: in the categories game a wrong (or not-ok) submit response leaves
the solved-pair list and both unsolved tile pools unchanged, while a
correct one appends exactly the looked-up pair to the solved list and
removes exactly the selected category tile and the selected amount tile
from their respective pools (given well-formed round data: distinct tile
ids and not-yet-solved selections). -/
theorem C7_categories_tile_frame :
    (∀ (s : ConnState) (sc sa : String) (j : ConnSubmitJson),
      (!j.ok || !(j.correct.getD false)) = true →
      (connCheckStep s sc sa j).solved = s.solved ∧
      unsolvedCategories (connCheckStep s sc sa j) = unsolvedCategories s ∧
      unsolvedAmounts (connCheckStep s sc sa j) = unsolvedAmounts s) ∧
    (∀ (s : ConnState) (sc sa : String) (j : ConnSubmitJson)
       (tc : TileCategory) (ta : TileAmount),
      j.ok = true → j.correct = some true →
      lookupById TileCategory.id s.categories sc = some tc →
      lookupById TileAmount.id s.amounts sa = some ta →
      (s.categories.map TileCategory.id).Nodup →
      (s.amounts.map TileAmount.id).Nodup →
      tc ∈ unsolvedCategories s → ta ∈ unsolvedAmounts s →
      (connCheckStep s sc sa j).solved = s.solved ++ [(tc, ta)] ∧
      unsolvedCategories (connCheckStep s sc sa j) =
        (unsolvedCategories s).filter (fun x => ¬ (tc.id = x.id)) ∧
      unsolvedAmounts (connCheckStep s sc sa j) =
        (unsolvedAmounts s).filter (fun x => ¬ (ta.id = x.id)) ∧
      (unsolvedCategories (connCheckStep s sc sa j)).length + 1 =
        (unsolvedCategories s).length ∧
      (unsolvedAmounts (connCheckStep s sc sa j)).length + 1 =
        (unsolvedAmounts s).length) := by
  refine ⟨connCheckStep_wrong, ?_⟩
  intro s sc sa j tc ta hok hc hct hat hndc hnda htcu htau
  obtain ⟨hsol, hcat, hamt⟩ := connCheckStep_correct_state s sc sa j tc ta hok hc hct hat
  have hc1 := unsolvedCategories_after_solve s (connCheckStep s sc sa j) tc ta hcat hsol
  have ha1 := unsolvedAmounts_after_solve s (connCheckStep s sc sa j) tc ta hamt hsol
  have hndc' : ((unsolvedCategories s).map TileCategory.id).Nodup :=
    List.Nodup.sublist ((List.filter_sublist _).map _) hndc
  have hnda' : ((unsolvedAmounts s).map TileAmount.id).Nodup :=
    List.Nodup.sublist ((List.filter_sublist _).map _) hnda
  refine ⟨hsol, hc1, ha1, ?_, ?_⟩
  · rw [hc1]
    exact length_filter_remove_id TileCategory.id (unsolvedCategories s) tc hndc' htcu
  · rw [ha1]
    exact length_filter_remove_id TileAmount.id (unsolvedAmounts s) ta hnda' htau

/-- Witness for C7: solving the first pair on a concrete two-pair board. -/
theorem C7_witness :
    (connCheckStep
      { categories := [⟨"c1", "Food", some "food"⟩, ⟨"c2", "Rent", some "rent"⟩],
        amounts := [⟨"a1", "$50", some 50⟩, ⟨"a2", "$900", some 900⟩],
        solved := [], tries := 3, completed := false }
      "c1" "a1"
      { ok := true, correct := some true, tries_remaining := some 3,
        round_complete := none }).solved =
      [(⟨"c1", "Food", some "food"⟩, ⟨"a1", "$50", some 50⟩)] := by
  have h := (C7_categories_tile_frame.2
    { categories := [⟨"c1", "Food", some "food"⟩, ⟨"c2", "Rent", some "rent"⟩],
      amounts := [⟨"a1", "$50", some 50⟩, ⟨"a2", "$900", some 900⟩],
      solved := [], tries := 3, completed := false }
    "c1" "a1"
    { ok := true, correct := some true, tries_remaining := some 3, round_complete := none }
    ⟨"c1", "Food", some "food"⟩ ⟨"a1", "$50", some 50⟩
    rfl rfl (by decide) (by decide) (by decide) (by decide) (by decide) (by decide)).1
  simpa using h

/-- C10: with `n` at most the bank size, `sampleQuestions` returns exactly
`n` questions with pairwise-distinct ids, each drawn from the bank with its
choice list a permutation of the original and `correctIndex` remapped to
keep denoting the same correct answer. -/
theorem C10_sampleQuestions_sound (r : Nat → Nat → Nat) (n : Nat) (hn : n ≤ bank.length) :
    (sampleQuestions r n).length = n ∧
    ((sampleQuestions r n).map UIQuestion.id).Nodup ∧
    ∀ q' ∈ sampleQuestions r n, ∃ q ∈ bank,
      q'.id = q.id ∧ q'.question = q.question ∧
      q'.choices.Perm q.choices ∧
      q'.choices[q'.correctIndex]? = q.choices[q.correctIndex]? := by
  have hsample : sampleQuestions r n =
      ((shuffle (r 0) bank).take n).enum.map
        (fun p => reshuffleQuestion (r (p.1 + 1)) p.2) := rfl
  have hplen : ((shuffle (r 0) bank).take n).length = n := by
    rw [List.length_take, shuffle_length]
    omega
  refine ⟨?_, ?_, ?_⟩
  · rw [hsample, List.length_map, List.enum_length]
    exact hplen
  · have hids : (sampleQuestions r n).map UIQuestion.id =
        ((shuffle (r 0) bank).take n).map UIQuestion.id := by
      rw [hsample, List.map_map]
      have hcomp : (UIQuestion.id ∘ fun p : Nat × UIQuestion => reshuffleQuestion (r (p.1 + 1)) p.2)
          = (UIQuestion.id ∘ Prod.snd) := by
        funext p
        rfl
      rw [hcomp, ← List.map_map, List.enum_map_snd]
    rw [hids]
    have hb : (bank.map UIQuestion.id).Nodup := by decide
    have hsh : ((shuffle (r 0) bank).map UIQuestion.id).Nodup := by
      rw [((shuffle_perm (r 0) bank).map UIQuestion.id).nodup_iff]
      exact hb
    exact List.Nodup.sublist ((List.take_sublist _ _).map _) hsh
  · intro q' hq'
    rw [hsample] at hq'
    obtain ⟨p, hp, hq'eq⟩ := List.mem_map.mp hq'
    have hmem2 : p.2 ∈ (shuffle (r 0) bank).take n := by
      have h1 : p.2 ∈ ((shuffle (r 0) bank).take n).enum.map Prod.snd :=
        List.mem_map_of_mem Prod.snd hp
      rwa [List.enum_map_snd] at h1
    have hmem3 : p.2 ∈ bank := by
      have h1 : p.2 ∈ shuffle (r 0) bank := List.take_subset _ _ hmem2
      exact ((shuffle_perm (r 0) bank).mem_iff).mp h1
    have hci : p.2.correctIndex < p.2.choices.length := by
      have hall : ∀ q ∈ bank, q.correctIndex < q.choices.length := by decide
      exact hall p.2 hmem3
    obtain ⟨h1, h2, h3, h4⟩ := reshuffleQuestion_spec (r (p.1 + 1)) p.2 hci
    rw [← hq'eq]
    exact ⟨p.2, hmem3, h1, h2, h3, h4⟩

/-- Witness for C10 at a concrete random stream and sample size. -/
theorem C10_witness : (sampleQuestions (fun _ _ => 0) 2).length = 2 :=
  (C10_sampleQuestions_sound (fun _ _ => 0) 2 (by decide)).1

end Capstone
